import Mathlib

/-!
Shallow embedding of the calldata-generation and slippage-adjustment logic of
`src/utils/transactions.ts` (functions `generateApproveCallData`,
`generateExchangeCallData`, `calculateAdjustedMinOutput`, `getMinDy`).

Byte strings are `List Nat` with every entry below 256.  TypeScript `bigint`
values are `Int` (JavaScript bigint division truncates toward zero, which is
`Int.tdiv`).  Addresses are their 160-bit numeric value as a `Nat`.

The viem calls `encodeFunctionData` / `parseAbiItem` are modelled by standard
ABI encoding: a 4-byte selector (the first four bytes of the Keccak-256 hash
of the normalized signature) followed by 32-byte big-endian words.  Keccak-256
is implemented below for single-block messages (all signatures are short).
The network read in `getMinDy` is modelled by explicit state passing: a
`NetworkState` carries the chain response function and a log of the
`get_dy` queries actually issued.
-/

namespace EthenaPoc

abbrev Bytes := List Nat

/-! ### Keccak-256 (for messages shorter than the 136-byte rate) -/

/-- Rotate a 64-bit lane left by `n` bits. -/
def ROL64 (x n : Nat) : Nat :=
  ((x <<< (n % 64)) ||| (x >>> (64 - n % 64))) % 2 ^ 64

/-- Position visited at step `t` of the rho offset walk of FIPS 202,
starting from `(1, 0)` and moving by `(x, y) to (y, (2x + 3y) mod 5)`. -/
def rhoWalk : Nat → Nat × Nat
  | 0 => (1, 0)
  | t + 1 =>
      let p := rhoWalk t
      (p.2, (2 * p.1 + 3 * p.2) % 5)

/-- Rho rotation offset of the lane at `(x, y)`: the triangular number
`(t + 1)(t + 2) / 2 mod 64` for the step `t` whose walk position is
`(x, y)`, and `0` for the fixed lane `(0, 0)`. -/
def rhoOffsetAt (x y : Nat) : Nat :=
  ((List.range 24).filterMap (fun t =>
    if rhoWalk t = (x, y) then some ((t + 1) * (t + 2) / 2 % 64) else none)).headD 0

/-- Keccak rotation offsets, indexed by `x + 5 * y`. -/
def rhoOffsets : List Nat :=
  (List.range 25).map (fun idx => rhoOffsetAt (idx % 5) (idx / 5))

/-- State of the degree-8 LFSR of FIPS 202 (polynomial
`x^8 + x^6 + x^5 + x^4 + 1`) after `t` steps from `1`. -/
def rcReg : Nat → Nat
  | 0 => 1
  | t + 1 =>
      let d := rcReg t <<< 1
      if d &&& 0x100 = 0 then d else (d ^^^ 0x71) &&& 0xFF

/-- Round constant of round `i`: bit `2 ^ j - 1` is the LFSR output at
step `j + 7 i`, for `j` from 0 to 6. -/
def rcConst (i : Nat) : Nat :=
  (List.range 7).foldl
    (fun acc j => acc ||| ((rcReg (j + 7 * i) &&& 1) <<< (2 ^ j - 1))) 0

/-- Keccak round constants for the 24 rounds. -/
def RC : List Nat :=
  (List.range 24).map rcConst

/-- Theta step on the 25-lane state. -/
def theta (A : List Nat) : List Nat :=
  let C := (List.range 5).map (fun x =>
    A.getD x 0 ^^^ A.getD (x + 5) 0 ^^^ A.getD (x + 10) 0 ^^^
    A.getD (x + 15) 0 ^^^ A.getD (x + 20) 0)
  let D := (List.range 5).map (fun x =>
    C.getD ((x + 4) % 5) 0 ^^^ ROL64 (C.getD ((x + 1) % 5) 0) 1)
  (List.range 25).map (fun idx => A.getD idx 0 ^^^ D.getD (idx % 5) 0)

/-- Combined rho and pi steps: the lane at target position `(x, y)` comes from
source position `((x + 3 * y) % 5, x)`, rotated by its rho offset. -/
def rhoPi (A : List Nat) : List Nat :=
  (List.range 25).map (fun idx =>
    let x := idx % 5
    let y := idx / 5
    let src := (x + 3 * y) % 5 + 5 * x
    ROL64 (A.getD src 0) (rhoOffsets.getD src 0))

/-- Chi step. -/
def chi (A : List Nat) : List Nat :=
  (List.range 25).map (fun idx =>
    let x := idx % 5
    let y := idx / 5
    A.getD idx 0 ^^^
      ((A.getD ((x + 1) % 5 + 5 * y) 0 ^^^ (2 ^ 64 - 1)) &&&
        A.getD ((x + 2) % 5 + 5 * y) 0))

/-- Iota step: mix the round constant into lane 0. -/
def iotaStep (rc : Nat) (A : List Nat) : List Nat :=
  match A with
  | [] => []
  | a :: rest => (a ^^^ rc) :: rest

/-- One Keccak-f round. -/
def keccakRound (A : List Nat) (rc : Nat) : List Nat :=
  iotaStep rc (chi (rhoPi (theta A)))

/-- The Keccak-f[1600] permutation: 24 rounds. -/
def keccakF (A : List Nat) : List Nat :=
  RC.foldl keccakRound A

/-- Keccak pad10*1 for rate 136, for messages shorter than one block. -/
def padBlock (msg : Bytes) : Bytes :=
  let z := 136 - msg.length
  if z = 1 then msg ++ [0x81]
  else msg ++ [0x01] ++ List.replicate (z - 2) 0 ++ [0x80]

/-- Interpret up to eight bytes as a little-endian 64-bit lane. -/
def bytesToLane (bs : Bytes) : Nat :=
  bs.foldr (fun b acc => acc * 256 + b) 0

/-- The eight little-endian bytes of a 64-bit lane. -/
def laneToBytes (x : Nat) : Bytes :=
  (List.range 8).map (fun k => x / 256 ^ k % 256)

/-- Keccak-256 of a message shorter than 136 bytes (single-block absorb). -/
def keccak256 (msg : Bytes) : Bytes :=
  let block := padBlock msg
  let st0 := (List.range 25).map (fun idx => bytesToLane ((block.drop (8 * idx)).take 8))
  let st := keccakF st0
  ((st.take 4).map laneToBytes).flatten

/-- ASCII bytes of a signature string. -/
def strBytes (s : String) : Bytes :=
  s.toList.map Char.toNat

/-- The 4-byte ABI function selector of a normalized signature. -/
def selectorOf (sig : String) : Bytes :=
  (keccak256 (strBytes sig)).take 4

/-! ### ABI words

The viem function `encodeAbiParameters` validates the range of each argument before encoding
it (`IntegerOutOfRangeError` / `InvalidAddressError`), so the word encoders
return `Option`. -/

/-- The `n` big-endian base-256 digits of `x` (most significant first). -/
def beWordAux : Nat → Nat → Bytes
  | 0, _ => []
  | n + 1, x => beWordAux n (x / 256) ++ [x % 256]

/-- The 32-byte big-endian word of a value below `2 ^ 256`. -/
def beWord (x : Nat) : Bytes := beWordAux 32 x

/-- Big-endian value of a byte string. -/
def beBytesToNat (bs : Bytes) : Nat :=
  bs.foldl (fun acc b => acc * 256 + b) 0

/-- ABI word of a `uint256` argument: in range, or rejected. -/
def encodeUint256 (x : Int) : Option Bytes :=
  if 0 ≤ x ∧ x < 2 ^ 256 then some (beWord x.toNat) else none

/-- ABI word of an `int128` argument: sign-extended two-complement form,
that is, the value modulo `2 ^ 256`. -/
def encodeInt128 (i : Int) : Option Bytes :=
  if -(2 ^ 127) ≤ i ∧ i < 2 ^ 127 then some (beWord (i % (2 ^ 256 : Int)).toNat)
  else none

/-- ABI word of an `address` argument: the 20-byte value left-padded to 32. -/
def encodeAddress (a : Nat) : Option Bytes :=
  if a < 2 ^ 160 then some (beWord a) else none

/-! ### The embedded source functions -/

/-- Failure taxonomy of the calldata builder: a rejected argument
(viem encoding validation) or a failed / undecodable `get_dy` read. -/
inductive CallError where
  | invalidParameter
  | quoteUnavailable
deriving DecidableEq, Repr

instance {ε α : Type} [DecidableEq ε] [DecidableEq α] : DecidableEq (Except ε α) :=
  fun x y =>
    match x, y with
    | Except.ok u, Except.ok v =>
        if h : u = v then isTrue (by rw [h]) else isFalse (fun hh => by cases hh; exact h rfl)
    | Except.error u, Except.error v =>
        if h : u = v then isTrue (by rw [h]) else isFalse (fun hh => by cases hh; exact h rfl)
    | Except.ok _, Except.error _ => isFalse (fun hh => by cases hh)
    | Except.error _, Except.ok _ => isFalse (fun hh => by cases hh)

/-- Selector of `approve(address spender, uint256 value)`, the `parseAbiItem`
string of the source, normalized. -/
def approveSelector : Bytes := selectorOf "approve(address,uint256)"

/-- `exchange(int128 i,int128 j,uint256 _dx,uint256 _min_dy,address _receiver)`
the `parseAbiItem` string of the source, normalized. -/
def exchangeSelector : Bytes :=
  selectorOf "exchange(int128,int128,uint256,uint256,address)"

/-- Embeds `generateApproveCallData` of `src/utils/transactions.ts`:
`encodeFunctionData` for `approve(address,uint256)` applied to
`[spender, amount]`. -/
def generateApproveCallData (spender : Nat) (amount : Int) : Option Bytes := do
  let ws ← encodeAddress spender
  let wa ← encodeUint256 amount
  pure (approveSelector ++ ws ++ wa)

/-- Embeds `calculateAdjustedMinOutput` of `src/utils/transactions.ts`:
`(amount * (10000n - slippageBps)) / 10000n` on JavaScript bigints, whose
division truncates toward zero; `slippageBps` defaults to `3n`.  The source
performs no range check on either argument. -/
def calculateAdjustedMinOutput (amount : Int) (slippageBps : Int := 3) : Int :=
  Int.tdiv (amount * (10000 - slippageBps)) 10000

/-- The chain, as seen through the read-only client `getMinDy` creates:
a response function for `get_dy(pool, i, j, dx)` (failures are network or
contract errors), plus the log of queries the client has issued. -/
structure NetworkState where
  responses : Nat → Int → Int → Nat → Except Unit Nat
  queries : List (Nat × Int × Int × Nat)

/-- Embeds `getMinDy` of `src/utils/transactions.ts`:
`publicClient.readContract` for `get_dy(int128,int128,uint256)`.
`readContract` first ABI-encodes the arguments (rejecting out-of-range
`i`, `j`, `dx` before any request is made), then issues the read — logged in
`queries` — and decodes the response as a `uint256`; any transport failure or
undecodable response is a single quote-unavailable error. -/
def getMinDy (swapContractAddress : Nat) (i j dx : Int) (s : NetworkState) :
    Except CallError Nat × NetworkState :=
  if (-(2 ^ 127) ≤ i ∧ i < 2 ^ 127) ∧ (-(2 ^ 127) ≤ j ∧ j < 2 ^ 127) ∧
      (0 ≤ dx ∧ dx < 2 ^ 256) then
    let s' := { s with queries := s.queries ++ [(swapContractAddress, i, j, dx.toNat)] }
    match s.responses swapContractAddress i j dx.toNat with
    | Except.ok v =>
        (if v < 2 ^ 256 then Except.ok v else Except.error CallError.quoteUnavailable, s')
    | Except.error _ => (Except.error CallError.quoteUnavailable, s')
  else (Except.error CallError.invalidParameter, s)

/-- The `encodeFunctionData` call inside `generateExchangeCallData`:
selector of `exchange(int128,int128,uint256,uint256,address)` followed by the
five argument words, each argument validated against its ABI type. -/
def encodeExchangeArgs (i j _dx min_dy : Int) (_receiver : Nat) : Option Bytes := do
  let wi ← encodeInt128 i
  let wj ← encodeInt128 j
  let wdx ← encodeUint256 _dx
  let wmin ← encodeUint256 min_dy
  let wr ← encodeAddress _receiver
  pure (exchangeSelector ++ wi ++ wj ++ wdx ++ wmin ++ wr)

/-- Embeds `generateExchangeCallData` of `src/utils/transactions.ts`:
awaits `getMinDy`, applies `calculateAdjustedMinOutput` with its default
slippage, then `encodeFunctionData` for
`exchange(int128,int128,uint256,uint256,address)` applied to
`[i, j, _dx, adjustedMinDy, _receiver]`. -/
def generateExchangeCallData (swapContractAddress : Nat) (i j _dx : Int)
    (_receiver : Nat) (s : NetworkState) : Except CallError Bytes × NetworkState :=
  match getMinDy swapContractAddress i j _dx s with
  | (Except.error e, s') => (Except.error e, s')
  | (Except.ok minDy, s') =>
      match encodeExchangeArgs i j _dx (calculateAdjustedMinOutput (minDy : Int)) _receiver with
      | some bs => (Except.ok bs, s')
      | none => (Except.error CallError.invalidParameter, s')

/-! ### ABI decoding (for round-trip statements) -/

/-- The `k`-th 32-byte argument word of a calldata byte string. -/
def argWord (bs : Bytes) (k : Nat) : Bytes :=
  (bs.drop (4 + 32 * k)).take 32

/-- Signed (two-complement, 256-bit) reading of a 32-byte word. -/
def decodeIntWord (bs : Bytes) : Int :=
  let v := beBytesToNat bs
  if v < 2 ^ 255 then (v : Int) else (v : Int) - 2 ^ 256

/-- ABI-decode `approve(address,uint256)` calldata back to its
`(spender, value)` argument pair. -/
def decodeApproveCallData (bs : Bytes) : Option (Nat × Nat) :=
  if bs.length = 68 ∧ bs.take 4 = approveSelector then
    some (beBytesToNat (argWord bs 0), beBytesToNat (argWord bs 1))
  else none

/-- ABI-decode `exchange(int128,int128,uint256,uint256,address)` calldata
back to its `(i, j, _dx, _min_dy, _receiver)` argument tuple. -/
def decodeExchangeCallData (bs : Bytes) : Option (Int × Int × Nat × Nat × Nat) :=
  if bs.length = 164 ∧ bs.take 4 = exchangeSelector then
    some (decodeIntWord (argWord bs 0), decodeIntWord (argWord bs 1),
      beBytesToNat (argWord bs 2), beBytesToNat (argWord bs 3),
      beBytesToNat (argWord bs 4))
  else none

/-- The range checks `readContract` applies to the `get_dy` arguments before
issuing the request: `i`, `j` fit `int128` and `dx` fits `uint256`. -/
def validArgs (i j dx : Int) : Prop :=
  (-(2 ^ 127) ≤ i ∧ i < 2 ^ 127) ∧ (-(2 ^ 127) ≤ j ∧ j < 2 ^ 127) ∧
    (0 ≤ dx ∧ dx < 2 ^ 256)

instance (i j dx : Int) : Decidable (validArgs i j dx) := by
  unfold validArgs; infer_instance

/-- A stub chain whose `get_dy` always answers 99000000, with an empty log. -/
def stubQuoteState : NetworkState :=
  { responses := fun _ _ _ _ => Except.ok 99000000, queries := [] }

/-- A stub chain whose `get_dy` always answers 5, with an empty log. -/
def okStubState : NetworkState :=
  { responses := fun _ _ _ _ => Except.ok 5, queries := [] }

/-- A stub chain whose `get_dy` always fails, with an empty log. -/
def failStubState : NetworkState :=
  { responses := fun _ _ _ _ => Except.error (), queries := [] }

/-- A fixed concrete spender address for the approve round-trip test. -/
def spenderX : Nat := 0x1111111111111111111111111111111111111111

/-! ### Helper lemmas about ABI words -/

lemma beWordAux_length (n x : Nat) : (beWordAux n x).length = n := by
  induction n generalizing x with
  | zero => rfl
  | succ n ih => simp [beWordAux, ih]

lemma beWord_length (x : Nat) : (beWord x).length = 32 := beWordAux_length 32 x

lemma beBytesToNat_append_singleton (l : Bytes) (b : Nat) :
    beBytesToNat (l ++ [b]) = beBytesToNat l * 256 + b := by
  simp [beBytesToNat]

lemma beBytesToNat_beWordAux (n x : Nat) :
    beBytesToNat (beWordAux n x) = x % 256 ^ n := by
  induction n generalizing x with
  | zero => simp [beWordAux, beBytesToNat, Nat.mod_one]
  | succ n ih =>
      rw [beWordAux, beBytesToNat_append_singleton, ih, pow_succ,
        mul_comm (256 ^ n) 256, Nat.mod_mul]
      omega

lemma beBytesToNat_beWord {x : Nat} (h : x < 2 ^ 256) :
    beBytesToNat (beWord x) = x := by
  have h2 : (256 : Nat) ^ 32 = 2 ^ 256 := by norm_num
  rw [beWord, beBytesToNat_beWordAux, h2, Nat.mod_eq_of_lt h]

lemma int128_emod_of_nonneg {i : Int} (h1 : 0 ≤ i) (h2 : i < 2 ^ 127) :
    i % (2 ^ 256 : Int) = i :=
  Int.emod_eq_of_lt h1 (lt_of_lt_of_le h2 (by norm_num))

lemma int128_emod_of_neg {i : Int} (h1 : -(2 ^ 127) ≤ i) (h2 : i < 0) :
    i % (2 ^ 256 : Int) = i + 2 ^ 256 := by
  rw [show i + (2 : Int) ^ 256 = i + 2 ^ 256 * 1 by ring, ← Int.add_mul_emod_self_left]
  exact Int.emod_eq_of_lt (by linarith [show ((2 : Int) ^ 127 ≤ 2 ^ 256) by norm_num])
    (by linarith [show ((0 : Int) < 2 ^ 256) by norm_num])

lemma int128_emod_toNat_lt {i : Int} (h1 : -(2 ^ 127) ≤ i) (h2 : i < 2 ^ 127) :
    (i % (2 ^ 256 : Int)).toNat < 2 ^ 256 := by
  rcases le_or_lt 0 i with hpos | hneg
  · rw [int128_emod_of_nonneg hpos h2]
    have : (i.toNat : Int) < (2 : Int) ^ 256 := by
      rw [Int.toNat_of_nonneg hpos]; exact lt_of_lt_of_le h2 (by norm_num)
    exact_mod_cast this
  · rw [int128_emod_of_neg h1 hneg]
    have : ((i + 2 ^ 256).toNat : Int) < (2 : Int) ^ 256 := by
      rw [Int.toNat_of_nonneg (by linarith [show ((2 : Int) ^ 127 ≤ 2 ^ 256) by norm_num])]
      linarith
    exact_mod_cast this

lemma decodeIntWord_beWord_int128 {i : Int} (h1 : -(2 ^ 127) ≤ i) (h2 : i < 2 ^ 127) :
    decodeIntWord (beWord (i % (2 ^ 256 : Int)).toNat) = i := by
  simp only [decodeIntWord]
  rw [beBytesToNat_beWord (int128_emod_toNat_lt h1 h2)]
  rcases le_or_lt 0 i with hpos | hneg
  · rw [int128_emod_of_nonneg hpos h2]
    have hcast : (i.toNat : Int) = i := Int.toNat_of_nonneg hpos
    have hlt : i.toNat < 2 ^ 255 := by
      have : (i.toNat : Int) < (2 : Int) ^ 255 := by
        rw [hcast]; exact lt_of_lt_of_le h2 (by norm_num)
      exact_mod_cast this
    rw [if_pos hlt]; exact hcast
  · rw [int128_emod_of_neg h1 hneg]
    have hge : 0 ≤ i + 2 ^ 256 := by
      linarith [show ((2 : Int) ^ 127 ≤ 2 ^ 256) by norm_num]
    have hcast : ((i + 2 ^ 256).toNat : Int) = i + 2 ^ 256 := Int.toNat_of_nonneg hge
    have hnlt : ¬ (i + 2 ^ 256).toNat < 2 ^ 255 := by
      have : (2 : Int) ^ 255 ≤ ((i + 2 ^ 256).toNat : Int) := by
        rw [hcast]
        linarith [show (-(2 : Int) ^ 127 + 2 ^ 256 ≥ 2 ^ 255) by norm_num]
      intro hc
      have : ((i + 2 ^ 256).toNat : Int) < (2 : Int) ^ 255 := by exact_mod_cast hc
      linarith
    rw [if_neg hnlt, hcast]; ring

lemma drop_len_append {l1 l2 : Bytes} {n : Nat} (h : l1.length = n) :
    (l1 ++ l2).drop n = l2 := List.drop_left' h

lemma take_len_append {l1 l2 : Bytes} {n : Nat} (h : l1.length = n) :
    (l1 ++ l2).take n = l1 := List.take_left' h

set_option maxRecDepth 100000 in
lemma exchangeSelector_length : exchangeSelector.length = 4 := rfl

set_option maxRecDepth 100000 in
lemma approveSelector_eq : approveSelector = [0x09, 0x5e, 0xa7, 0xb3] := rfl

lemma calldata_words (sel w1 w2 w3 w4 w5 : Bytes) (hsel : sel.length = 4)
    (h1 : w1.length = 32) (h2 : w2.length = 32) (h3 : w3.length = 32)
    (h4 : w4.length = 32) (h5 : w5.length = 32) :
    (sel ++ w1 ++ w2 ++ w3 ++ w4 ++ w5).length = 164 ∧
    (sel ++ w1 ++ w2 ++ w3 ++ w4 ++ w5).take 4 = sel ∧
    argWord (sel ++ w1 ++ w2 ++ w3 ++ w4 ++ w5) 0 = w1 ∧
    argWord (sel ++ w1 ++ w2 ++ w3 ++ w4 ++ w5) 1 = w2 ∧
    argWord (sel ++ w1 ++ w2 ++ w3 ++ w4 ++ w5) 2 = w3 ∧
    argWord (sel ++ w1 ++ w2 ++ w3 ++ w4 ++ w5) 3 = w4 ∧
    argWord (sel ++ w1 ++ w2 ++ w3 ++ w4 ++ w5) 4 = w5 := by
  have hassoc : sel ++ w1 ++ w2 ++ w3 ++ w4 ++ w5 =
      sel ++ (w1 ++ (w2 ++ (w3 ++ (w4 ++ w5)))) := by
    simp [List.append_assoc]
  have d4 : (sel ++ (w1 ++ (w2 ++ (w3 ++ (w4 ++ w5))))).drop 4 =
      w1 ++ (w2 ++ (w3 ++ (w4 ++ w5))) := drop_len_append hsel
  have d36 : (sel ++ (w1 ++ (w2 ++ (w3 ++ (w4 ++ w5))))).drop 36 =
      w2 ++ (w3 ++ (w4 ++ w5)) := by
    rw [show (36 : Nat) = 4 + 32 from rfl, ← List.drop_drop, d4]
    exact drop_len_append h1
  have d68 : (sel ++ (w1 ++ (w2 ++ (w3 ++ (w4 ++ w5))))).drop 68 =
      w3 ++ (w4 ++ w5) := by
    rw [show (68 : Nat) = 36 + 32 from rfl, ← List.drop_drop, d36]
    exact drop_len_append h2
  have d100 : (sel ++ (w1 ++ (w2 ++ (w3 ++ (w4 ++ w5))))).drop 100 =
      w4 ++ w5 := by
    rw [show (100 : Nat) = 68 + 32 from rfl, ← List.drop_drop, d68]
    exact drop_len_append h3
  have d132 : (sel ++ (w1 ++ (w2 ++ (w3 ++ (w4 ++ w5))))).drop 132 = w5 := by
    rw [show (132 : Nat) = 100 + 32 from rfl, ← List.drop_drop, d100]
    exact drop_len_append h4
  refine ⟨?_, ?_, ?_, ?_, ?_, ?_, ?_⟩
  · simp [List.length_append, hsel, h1, h2, h3, h4, h5]
  · rw [hassoc]; exact take_len_append hsel
  · show ((sel ++ w1 ++ w2 ++ w3 ++ w4 ++ w5).drop 4).take 32 = w1
    rw [hassoc, d4]; exact take_len_append h1
  · show ((sel ++ w1 ++ w2 ++ w3 ++ w4 ++ w5).drop 36).take 32 = w2
    rw [hassoc, d36]; exact take_len_append h2
  · show ((sel ++ w1 ++ w2 ++ w3 ++ w4 ++ w5).drop 68).take 32 = w3
    rw [hassoc, d68]; exact take_len_append h3
  · show ((sel ++ w1 ++ w2 ++ w3 ++ w4 ++ w5).drop 100).take 32 = w4
    rw [hassoc, d100]; exact take_len_append h4
  · show ((sel ++ w1 ++ w2 ++ w3 ++ w4 ++ w5).drop 132).take 32 = w5
    rw [hassoc, d132]; exact List.take_of_length_le (le_of_eq h5)

/-! ### Helper lemmas about the slippage adjuster -/

lemma calculateAdjustedMinOutput_natCast (a bps : Nat) (h : bps ≤ 10000) :
    calculateAdjustedMinOutput (a : Int) (bps : Int) =
      ((a * (10000 - bps) / 10000 : Nat) : Int) := by
  unfold calculateAdjustedMinOutput
  have hcast : ((10000 : Int) - (bps : Int)) = ((10000 - bps : Nat) : Int) := by
    have h10 : ((10000 - bps : Nat) : Int) = (10000 : Int) - (bps : Int) :=
      Nat.cast_sub h
    omega
  rw [hcast, ← Nat.cast_mul]
  rfl

lemma calcAdj_default_natCast (q : Nat) :
    calculateAdjustedMinOutput (q : Int) = ((q * 9997 / 10000 : Nat) : Int) := by
  have h := calculateAdjustedMinOutput_natCast q 3 (by norm_num)
  push_cast at h ⊢
  convert h using 3

lemma calcAdj_default_nonneg (q : Nat) : 0 ≤ calculateAdjustedMinOutput (q : Int) := by
  rw [calcAdj_default_natCast]
  exact Int.natCast_nonneg _

lemma calcAdj_default_le (q : Nat) : calculateAdjustedMinOutput (q : Int) ≤ (q : Int) := by
  rw [calcAdj_default_natCast]
  have hnat : q * 9997 / 10000 ≤ q := by
    have hmul : q * 9997 ≤ q * 10000 := Nat.mul_le_mul_left q (by norm_num)
    calc q * 9997 / 10000 ≤ q * 10000 / 10000 := Nat.div_le_div_right hmul
    _ = q := Nat.mul_div_cancel q (by norm_num)
  exact_mod_cast hnat

lemma calcAdj_default_lt_bound {q : Nat} (hq : q < 2 ^ 256) :
    calculateAdjustedMinOutput (q : Int) < 2 ^ 256 := by
  have hcast : (q : Int) < 2 ^ 256 := by exact_mod_cast hq
  exact lt_of_le_of_lt (calcAdj_default_le q) hcast

lemma calcAdj_default_toNat (q : Nat) :
    (calculateAdjustedMinOutput (q : Int)).toNat = q * 9997 / 10000 := by
  rw [calcAdj_default_natCast]
  exact Int.toNat_natCast _

/-! ### Path lemmas for the exchange calldata builder -/

set_option maxRecDepth 100000 in
lemma encodeExchangeArgs_eq (i j : Int) (dx min_dy : Int) (r : Nat)
    (hi1 : -(2 ^ 127) ≤ i) (hi2 : i < 2 ^ 127)
    (hj1 : -(2 ^ 127) ≤ j) (hj2 : j < 2 ^ 127)
    (hdx1 : 0 ≤ dx) (hdx2 : dx < 2 ^ 256)
    (hm1 : 0 ≤ min_dy) (hm2 : min_dy < 2 ^ 256) (hr : r < 2 ^ 160) :
    encodeExchangeArgs i j dx min_dy r =
      some (exchangeSelector ++ beWord (i % (2 ^ 256 : Int)).toNat ++
        beWord (j % (2 ^ 256 : Int)).toNat ++ beWord dx.toNat ++
        beWord min_dy.toNat ++ beWord r) := by
  norm_num at hi1 hi2 hj1 hj2 hdx2 hm2 hr
  simp [encodeExchangeArgs, encodeInt128, encodeUint256, encodeAddress,
    hi1, hi2, hj1, hj2, hdx1, hdx2, hm1, hm2, hr, List.append_assoc]

lemma decode_exchange_encode (i j : Int) (dxn minn r : Nat)
    (hi1 : -(2 ^ 127) ≤ i) (hi2 : i < 2 ^ 127)
    (hj1 : -(2 ^ 127) ≤ j) (hj2 : j < 2 ^ 127)
    (hdx : dxn < 2 ^ 256) (hmin : minn < 2 ^ 256) (hr : r < 2 ^ 160) :
    decodeExchangeCallData (exchangeSelector ++ beWord (i % (2 ^ 256 : Int)).toNat ++
      beWord (j % (2 ^ 256 : Int)).toNat ++ beWord dxn ++ beWord minn ++ beWord r) =
      some (i, j, dxn, minn, r) := by
  obtain ⟨hlen, htake, w0, w1, w2, w3, w4⟩ :=
    calldata_words exchangeSelector
      (beWord (i % (2 ^ 256 : Int)).toNat) (beWord (j % (2 ^ 256 : Int)).toNat)
      (beWord dxn) (beWord minn) (beWord r)
      exchangeSelector_length (beWord_length _) (beWord_length _)
      (beWord_length _) (beWord_length _) (beWord_length _)
  rw [decodeExchangeCallData, if_pos ⟨hlen, htake⟩, w0, w1, w2, w3, w4]
  rw [decodeIntWord_beWord_int128 hi1 hi2, decodeIntWord_beWord_int128 hj1 hj2,
    beBytesToNat_beWord hdx, beBytesToNat_beWord hmin,
    beBytesToNat_beWord (lt_of_lt_of_le hr (by norm_num))]

lemma mul9997_div_le (q : Nat) : q * 9997 / 10000 ≤ q := by
  have hmul : q * 9997 ≤ q * 10000 := Nat.mul_le_mul_left q (by norm_num)
  calc q * 9997 / 10000 ≤ q * 10000 / 10000 := Nat.div_le_div_right hmul
  _ = q := Nat.mul_div_cancel q (by norm_num)

lemma calcAdj_toNat_lt {q : Nat} (hq : q < 2 ^ 256) :
    (calculateAdjustedMinOutput (q : Int)).toNat < 2 ^ 256 := by
  rw [calcAdj_default_toNat]
  exact lt_of_le_of_lt (mul9997_div_le q) hq

lemma dx_toNat_lt {dx : Int} (h1 : 0 ≤ dx) (h2 : dx < 2 ^ 256) :
    dx.toNat < 2 ^ 256 := by
  have : (dx.toNat : Int) < 2 ^ 256 := by rw [Int.toNat_of_nonneg h1]; exact h2
  exact_mod_cast this

lemma getMinDy_ok (addr : Nat) (i j dx : Int) (s : NetworkState) (q : Nat)
    (hv : validArgs i j dx)
    (hq : s.responses addr i j dx.toNat = Except.ok q) (hqlt : q < 2 ^ 256) :
    getMinDy addr i j dx s =
      (Except.ok q, { s with queries := s.queries ++ [(addr, i, j, dx.toNat)] }) := by
  obtain ⟨hi, hj, hdx⟩ := hv
  simp only [getMinDy]
  rw [if_pos ⟨hi, hj, hdx⟩, hq]
  simp [hqlt, -Nat.reducePow]

lemma generateExchangeCallData_ok_eq (addr : Nat) (i j dx : Int) (r : Nat)
    (s : NetworkState) (q : Nat) (hv : validArgs i j dx) (hr : r < 2 ^ 160)
    (hq : s.responses addr i j dx.toNat = Except.ok q) (hqlt : q < 2 ^ 256) :
    generateExchangeCallData addr i j dx r s =
      (Except.ok (exchangeSelector ++ beWord (i % (2 ^ 256 : Int)).toNat ++
        beWord (j % (2 ^ 256 : Int)).toNat ++ beWord dx.toNat ++
        beWord (calculateAdjustedMinOutput (q : Int)).toNat ++ beWord r),
       { s with queries := s.queries ++ [(addr, i, j, dx.toNat)] }) := by
  obtain ⟨hi, hj, hdx⟩ := hv
  simp only [generateExchangeCallData]
  rw [getMinDy_ok addr i j dx s q ⟨hi, hj, hdx⟩ hq hqlt]
  simp [encodeExchangeArgs_eq i j dx (calculateAdjustedMinOutput (q : Int)) r
    hi.1 hi.2 hj.1 hj.2 hdx.1 hdx.2 (calcAdj_default_nonneg q)
    (calcAdj_default_lt_bound hqlt) hr]

lemma generateExchangeCallData_snd (addr : Nat) (i j dx : Int) (r : Nat)
    (s : NetworkState) (hv : validArgs i j dx) :
    (generateExchangeCallData addr i j dx r s).2 =
      { s with queries := s.queries ++ [(addr, i, j, dx.toNat)] } := by
  obtain ⟨hi, hj, hdx⟩ := hv
  simp only [generateExchangeCallData, getMinDy]
  rw [if_pos ⟨hi, hj, hdx⟩]
  cases hres : s.responses addr i j dx.toNat with
  | ok v =>
      by_cases hvlt : v < 2 ^ 256
      · cases henc : encodeExchangeArgs i j dx (calculateAdjustedMinOutput (v : Int)) r <;>
          simp [hvlt, henc, -Nat.reducePow]
      · simp [hvlt, -Nat.reducePow]
  | error e => rfl

lemma generateExchangeCallData_decode_ok (addr : Nat) (i j dx : Int) (r : Nat)
    (s : NetworkState) (q : Nat) (hv : validArgs i j dx) (hr : r < 2 ^ 160)
    (hq : s.responses addr i j dx.toNat = Except.ok q) (hqlt : q < 2 ^ 256) :
    Except.map decodeExchangeCallData (generateExchangeCallData addr i j dx r s).1 =
      Except.ok (some (i, j, dx.toNat, (calculateAdjustedMinOutput (q : Int)).toNat, r)) := by
  rw [generateExchangeCallData_ok_eq addr i j dx r s q hv hr hq hqlt]
  obtain ⟨hi, hj, hdx⟩ := hv
  simp only [Except.map]
  rw [decode_exchange_encode i j dx.toNat (calculateAdjustedMinOutput (q : Int)).toNat r
    hi.1 hi.2 hj.1 hj.2 (dx_toNat_lt hdx.1 hdx.2) (calcAdj_toNat_lt hqlt) hr]

/-! ### Claim theorems -/

/-- Claim C1: for every Amount and every slippageBps in [0, 10000), the
slippage adjuster returns exactly floor(amount * (10000 - slippageBps) /
10000) in integer arithmetic, slippageBps defaults to 3 when omitted,
adjust(1000000, 3) = 999700, and adjust(100, 9999) = 0. -/
theorem slippage_floor_formula (amount bps : Nat) (h : bps < 10000) :
    calculateAdjustedMinOutput (amount : Int) (bps : Int) =
      ((amount * (10000 - bps) / 10000 : Nat) : Int) ∧
    calculateAdjustedMinOutput (amount : Int) = calculateAdjustedMinOutput (amount : Int) 3 ∧
    calculateAdjustedMinOutput 1000000 3 = 999700 ∧
    calculateAdjustedMinOutput 100 9999 = 0 :=
  ⟨calculateAdjustedMinOutput_natCast amount bps h.le, rfl, by decide, by decide⟩

/-- Witness for C1 at amount = 1000000, bps = 3. -/
theorem slippage_floor_formula_witness :
    (3 : Nat) < 10000 ∧
    (calculateAdjustedMinOutput ((1000000 : Nat) : Int) (((3 : Nat)) : Int) =
      ((1000000 * (10000 - 3) / 10000 : Nat) : Int) ∧
    calculateAdjustedMinOutput ((1000000 : Nat) : Int) =
      calculateAdjustedMinOutput ((1000000 : Nat) : Int) 3 ∧
    calculateAdjustedMinOutput 1000000 3 = 999700 ∧
    calculateAdjustedMinOutput 100 9999 = 0) :=
  ⟨by decide, slippage_floor_formula 1000000 3 (by decide)⟩

/-- Claim C2 counterexample: calling the slippage adjuster with
slippageBps = 10000 does not fail; it silently returns 0, and with
slippageBps = 10001 it returns a negative value. -/
theorem slippage_no_validation_cex :
    calculateAdjustedMinOutput 100 10000 = 0 ∧
    calculateAdjustedMinOutput 100000 10001 = -10 := by
  decide

/-- Claim C2 amended: the source performs no validation of slippageBps;
at slippageBps = 10000 it returns 0 for every amount, and above 10000 it
can return a negative value (adjust(100000, 10001) = -10). -/
theorem slippage_ten_thousand_silent (a : Int) :
    calculateAdjustedMinOutput a 10000 = 0 ∧
    calculateAdjustedMinOutput 100000 10001 = -10 := by
  constructor
  · show Int.tdiv (a * (10000 - 10000)) 10000 = 0
    rw [show ((10000 : Int) - 10000) = 0 by norm_num, mul_zero, Int.zero_tdiv]
  · decide

/-- Claim C4: the slippage adjuster never exceeds its input, is the
identity at zero slippage, and maps a zero amount to zero. -/
theorem slippage_bounds (a bps : Nat) (h : bps ≤ 9999) :
    calculateAdjustedMinOutput (a : Int) (bps : Int) ≤ (a : Int) ∧
    calculateAdjustedMinOutput (a : Int) 0 = (a : Int) ∧
    calculateAdjustedMinOutput 0 (bps : Int) = 0 := by
  refine ⟨?_, ?_, ?_⟩
  · rw [calculateAdjustedMinOutput_natCast a bps (by omega)]
    have hnat : a * (10000 - bps) / 10000 ≤ a := by
      have hmul : a * (10000 - bps) ≤ a * 10000 := Nat.mul_le_mul_left a (by omega)
      calc a * (10000 - bps) / 10000 ≤ a * 10000 / 10000 := Nat.div_le_div_right hmul
      _ = a := Nat.mul_div_cancel a (by norm_num)
    exact_mod_cast hnat
  · have h0 := calculateAdjustedMinOutput_natCast a 0 (by norm_num)
    simp only [Nat.cast_zero, Nat.sub_zero] at h0
    rw [h0, Nat.mul_div_cancel a (by norm_num)]
  · show Int.tdiv (0 * (10000 - (bps : Int))) 10000 = 0
    rw [zero_mul, Int.zero_tdiv]

/-- Witness for C4 at a = 5, bps = 9999. -/
theorem slippage_bounds_witness :
    (9999 : Nat) ≤ 9999 ∧
    (calculateAdjustedMinOutput ((5 : Nat) : Int) (((9999 : Nat)) : Int) ≤ ((5 : Nat) : Int) ∧
    calculateAdjustedMinOutput ((5 : Nat) : Int) 0 = ((5 : Nat) : Int) ∧
    calculateAdjustedMinOutput 0 (((9999 : Nat)) : Int) = 0) :=
  ⟨by decide, slippage_bounds 5 9999 (by decide)⟩

set_option maxRecDepth 1000000 in
/-- Claim C5: for the fixed spender spenderX, approve calldata for amount
100 and amount 250 are distinct, and each ABI-decodes back to exactly the
(spender, amount) pair it was encoded from. -/
theorem approve_distinct_roundtrip :
    generateApproveCallData spenderX 100 ≠ generateApproveCallData spenderX 250 ∧
    (generateApproveCallData spenderX 100).bind decodeApproveCallData =
      some (spenderX, 100) ∧
    (generateApproveCallData spenderX 250).bind decodeApproveCallData =
      some (spenderX, 250) := by
  decide

set_option maxRecDepth 100000 in
/-- Claim C9: for every spender address and every amount in the uint256
range, the approve calldata is exactly the 4-byte selector 0x095ea7b3
followed by the 32-byte spender word and the 32-byte big-endian amount
word, hence always 68 bytes with a fixed selector. -/
theorem approve_calldata_shape (spender amount : Nat)
    (hs : spender < 2 ^ 160) (ha : amount < 2 ^ 256) :
    generateApproveCallData spender (amount : Int) =
      some ([0x09, 0x5e, 0xa7, 0xb3] ++ beWord spender ++ beWord amount) ∧
    ∀ bs, generateApproveCallData spender (amount : Int) = some bs →
      bs.length = 68 ∧ bs.take 4 = [0x09, 0x5e, 0xa7, 0xb3] := by
  have ha2 : (amount : Int) < 2 ^ 256 := by exact_mod_cast ha
  have henc : generateApproveCallData spender (amount : Int) =
      some (approveSelector ++ beWord spender ++ beWord amount) := by
    norm_num at hs ha2
    simp [generateApproveCallData, encodeAddress, encodeUint256, hs, ha2,
      Int.natCast_nonneg, List.append_assoc]
  rw [approveSelector_eq] at henc
  refine ⟨henc, ?_⟩
  intro bs hbs
  rw [henc] at hbs
  cases hbs
  constructor
  · simp [List.length_append, beWord_length]
  · rw [List.append_assoc]
    exact take_len_append rfl

set_option maxRecDepth 100000 in
/-- Witness for C9 at spender = 3, amount = 77. -/
theorem approve_calldata_shape_witness :
    (3 : Nat) < 2 ^ 160 ∧ (77 : Nat) < 2 ^ 256 ∧
    (generateApproveCallData 3 ((77 : Nat) : Int) =
      some ([0x09, 0x5e, 0xa7, 0xb3] ++ beWord 3 ++ beWord 77) ∧
    ∀ bs, generateApproveCallData 3 ((77 : Nat) : Int) = some bs →
      bs.length = 68 ∧ bs.take 4 = [0x09, 0x5e, 0xa7, 0xb3]) :=
  ⟨by norm_num, by norm_num, approve_calldata_shape 3 77 (by norm_num) (by norm_num)⟩

/-- Claim C3: with a quoter answering get_dy = 99000000, the exchange
calldata for (pool, i = 1, j = 0, dx = 100000000, receiver) ABI-decodes to
(1, 0, 100000000, 98970300, receiver), where 98970300 is the truncated
99000000 * 9997 / 10000. -/
theorem exchange_stub_quote_encoding (pool r : Nat) (s : NetworkState)
    (hr : r < 2 ^ 160)
    (hq : s.responses pool 1 0 ((100000000 : Int)).toNat = Except.ok 99000000) :
    Except.map decodeExchangeCallData
        (generateExchangeCallData pool 1 0 100000000 r s).1 =
      Except.ok (some (1, 0, 100000000, 98970300, r)) ∧
    calculateAdjustedMinOutput ((99000000 : Nat) : Int) = 98970300 ∧
    (98970300 : Nat) = 99000000 * 9997 / 10000 := by
  have hdec := generateExchangeCallData_decode_ok pool 1 0 100000000 r s 99000000
    ⟨⟨by norm_num, by norm_num⟩, ⟨by norm_num, by norm_num⟩, ⟨by norm_num, by norm_num⟩⟩
    hr hq (by norm_num)
  refine ⟨?_, by decide, by decide⟩
  rw [hdec, show Int.toNat 100000000 = 100000000 from rfl,
    show (calculateAdjustedMinOutput ((99000000 : Nat) : Int)).toNat = 98970300 by decide]

/-- Witness for C3 at pool = 7, receiver = 9, against the stub quoter. -/
theorem exchange_stub_quote_encoding_witness :
    (9 : Nat) < 2 ^ 160 ∧
    stubQuoteState.responses 7 1 0 ((100000000 : Int)).toNat = Except.ok 99000000 ∧
    (Except.map decodeExchangeCallData
        (generateExchangeCallData 7 1 0 100000000 9 stubQuoteState).1 =
      Except.ok (some (1, 0, 100000000, 98970300, 9)) ∧
    calculateAdjustedMinOutput ((99000000 : Nat) : Int) = 98970300 ∧
    (98970300 : Nat) = 99000000 * 9997 / 10000) :=
  ⟨by norm_num, rfl, exchange_stub_quote_encoding 7 9 stubQuoteState (by norm_num) rfl⟩

/-- Claim C6: when the quoter read fails — a transport error or a response
that does not decode as a uint256 — the exchange builder fails with the
single propagated quote-unavailable error and produces no calldata. -/
theorem quote_failure_propagates (addr : Nat) (i j dx : Int) (r : Nat)
    (s : NetworkState) (hv : validArgs i j dx)
    (hfail : ∀ v, s.responses addr i j dx.toNat = Except.ok v → 2 ^ 256 ≤ v) :
    (generateExchangeCallData addr i j dx r s).1 =
      Except.error CallError.quoteUnavailable := by
  obtain ⟨hi, hj, hdx⟩ := hv
  simp only [generateExchangeCallData, getMinDy]
  rw [if_pos ⟨hi, hj, hdx⟩]
  cases hres : s.responses addr i j dx.toNat with
  | ok v => simp [not_lt.mpr (hfail v hres), -Nat.reducePow]
  | error e => rfl

set_option maxRecDepth 1000000 in
/-- Witness for C6 against the always-failing stub quoter. -/
theorem quote_failure_propagates_witness :
    validArgs 1 0 5 ∧
    (generateExchangeCallData 7 1 0 5 9 failStubState).1 =
      Except.error CallError.quoteUnavailable :=
  ⟨by decide, quote_failure_propagates 7 1 0 5 9 failStubState (by decide)
    (fun v h => absurd h (by simp [failStubState]))⟩

/-- Claim C7: each invocation of the exchange builder appends its own fresh
get_dy query for its own dx to the query log; a second invocation with a
different dx issues a second, distinct query, and its minimum output is
derived from the response at the new dx, never from the first quote. -/
theorem fresh_quote_per_invocation (addr : Nat) (i j dx1 dx2 : Int) (r1 r2 : Nat)
    (s : NetworkState) (q2 : Nat)
    (h1 : validArgs i j dx1) (h2 : validArgs i j dx2) (hne : dx1 ≠ dx2)
    (hr2 : r2 < 2 ^ 160)
    (hq2 : s.responses addr i j dx2.toNat = Except.ok q2) (hq2lt : q2 < 2 ^ 256) :
    (generateExchangeCallData addr i j dx1 r1 s).2.queries =
      s.queries ++ [(addr, i, j, dx1.toNat)] ∧
    (generateExchangeCallData addr i j dx2 r2
        (generateExchangeCallData addr i j dx1 r1 s).2).2.queries =
      s.queries ++ [(addr, i, j, dx1.toNat), (addr, i, j, dx2.toNat)] ∧
    (addr, i, j, dx1.toNat) ≠ (addr, i, j, dx2.toNat) ∧
    Except.map decodeExchangeCallData
        (generateExchangeCallData addr i j dx2 r2
          (generateExchangeCallData addr i j dx1 r1 s).2).1 =
      Except.ok (some (i, j, dx2.toNat,
        (calculateAdjustedMinOutput (q2 : Int)).toNat, r2)) := by
  have hs1 := generateExchangeCallData_snd addr i j dx1 r1 s h1
  have hq2' : (generateExchangeCallData addr i j dx1 r1 s).2.responses addr i j dx2.toNat =
      Except.ok q2 := by rw [hs1]; exact hq2
  have htne : dx1.toNat ≠ dx2.toNat := by
    intro hc
    apply hne
    rw [← Int.toNat_of_nonneg h1.2.2.1, ← Int.toNat_of_nonneg h2.2.2.1, hc]
  refine ⟨by rw [hs1], ?_, by simp [htne], ?_⟩
  · rw [generateExchangeCallData_snd addr i j dx2 r2 _ h2, hs1]
    simp
  · exact generateExchangeCallData_decode_ok addr i j dx2 r2 _ q2 h2 hr2 hq2' hq2lt

set_option maxRecDepth 1000000 in
/-- Witness for C7: two invocations at dx = 3 then dx = 4 against the
constant stub quoter log two distinct queries. -/
theorem fresh_quote_per_invocation_witness :
    validArgs 1 0 3 ∧ validArgs 1 0 4 ∧ (3 : Int) ≠ 4 ∧ (9 : Nat) < 2 ^ 160 ∧
    okStubState.responses 7 1 0 ((4 : Int)).toNat = Except.ok 5 ∧
    ((generateExchangeCallData 7 1 0 3 8 okStubState).2.queries =
      okStubState.queries ++ [(7, 1, 0, (3 : Int).toNat)] ∧
    (generateExchangeCallData 7 1 0 4 9
        (generateExchangeCallData 7 1 0 3 8 okStubState).2).2.queries =
      okStubState.queries ++ [(7, 1, 0, (3 : Int).toNat), (7, 1, 0, (4 : Int).toNat)] ∧
    ((7 : Nat), (1 : Int), (0 : Int), (3 : Int).toNat) ≠ (7, 1, 0, (4 : Int).toNat) ∧
    Except.map decodeExchangeCallData
        (generateExchangeCallData 7 1 0 4 9
          (generateExchangeCallData 7 1 0 3 8 okStubState).2).1 =
      Except.ok (some (1, 0, (4 : Int).toNat,
        (calculateAdjustedMinOutput ((5 : Nat) : Int)).toNat, 9))) :=
  ⟨by decide, by decide, by decide, by norm_num, rfl,
    fresh_quote_per_invocation 7 1 0 3 4 8 9 okStubState 5
      (by decide) (by decide) (by decide) (by norm_num) rfl (by norm_num)⟩

set_option maxRecDepth 1000000 in
/-- Claim C8 counterexample: an invalid receiver address is only rejected
after the get_dy query has been issued — with a succeeding stub quoter the
builder logs the query and then fails with the parameter error, refuting
that every invalid parameter fails before any network read. -/
theorem invalid_receiver_after_query_cex :
    (generateExchangeCallData 7 1 0 5 (2 ^ 160) okStubState).1 =
      Except.error CallError.invalidParameter ∧
    (generateExchangeCallData 7 1 0 5 (2 ^ 160) okStubState).2.queries =
      [(7, 1, 0, 5)] := by
  decide

/-- Claim C8 amended: out-of-range i, j or dx make the builder fail with
the parameter error before the get_dy query (the state, and so the query
log, is untouched); an out-of-range receiver also fails with the parameter
error, but only after the get_dy query has been issued and logged.  The
slippage tolerance is a fixed default and is never validated. -/
theorem param_validation_split (addr : Nat) (i j dx : Int) (r : Nat)
    (s : NetworkState) (q : Nat)
    (hq : s.responses addr i j dx.toNat = Except.ok q) (hqlt : q < 2 ^ 256) :
    (¬ validArgs i j dx →
      generateExchangeCallData addr i j dx r s =
        (Except.error CallError.invalidParameter, s)) ∧
    (validArgs i j dx → 2 ^ 160 ≤ r →
      generateExchangeCallData addr i j dx r s =
        (Except.error CallError.invalidParameter,
          { s with queries := s.queries ++ [(addr, i, j, dx.toNat)] })) := by
  constructor
  · intro hnv
    unfold validArgs at hnv
    simp only [generateExchangeCallData, getMinDy]
    rw [if_neg hnv]
  · intro hv hr
    obtain ⟨hi, hj, hdx⟩ := hv
    have hi1 := hi.1; have hi2 := hi.2; have hj1 := hj.1; have hj2 := hj.2
    have hdx1 := hdx.1; have hdx2 := hdx.2
    have hm1 := calcAdj_default_nonneg q
    have hm2 := calcAdj_default_lt_bound hqlt
    have hrr : ¬ r < 2 ^ 160 := not_lt.mpr hr
    have hnone : encodeExchangeArgs i j dx (calculateAdjustedMinOutput (q : Int)) r =
        none := by
      norm_num at hi1 hi2 hj1 hj2 hdx2 hm2 hrr
      simp [encodeExchangeArgs, encodeInt128, encodeUint256, encodeAddress,
        hi1, hi2, hj1, hj2, hdx1, hdx2, hm1, hm2, hrr]
    simp only [generateExchangeCallData]
    rw [getMinDy_ok addr i j dx s q ⟨hi, hj, hdx⟩ hq hqlt]
    simp [hnone, -Nat.reducePow]

set_option maxRecDepth 1000000 in
/-- Witness for C8 amended, second part: receiver = 2 ^ 160 against the
succeeding stub quoter. -/
theorem param_validation_split_witness :
    okStubState.responses 7 1 0 ((5 : Int)).toNat = Except.ok 5 ∧
    validArgs 1 0 5 ∧ 2 ^ 160 ≤ 2 ^ 160 ∧
    generateExchangeCallData 7 1 0 5 (2 ^ 160) okStubState =
      (Except.error CallError.invalidParameter,
        { okStubState with
            queries := okStubState.queries ++ [(7, 1, 0, (5 : Int).toNat)] }) :=
  ⟨rfl, by decide, le_refl _,
    (param_validation_split 7 1 0 5 (2 ^ 160) okStubState 5 rfl
      (by norm_num)).2 (by decide) (le_refl _)⟩

/-- Claim C10: in successfully produced exchange calldata the fields i, j,
dx and receiver decode to exact copies of the passed arguments, and only
the min_dy field depends on the quoter response (it is the slippage
adjustment of the quote). -/
theorem exchange_fields_copied (addr : Nat) (i j dx : Int) (r : Nat)
    (s : NetworkState) (q : Nat) (hv : validArgs i j dx) (hr : r < 2 ^ 160)
    (hq : s.responses addr i j dx.toNat = Except.ok q) (hqlt : q < 2 ^ 256) :
    Except.map decodeExchangeCallData (generateExchangeCallData addr i j dx r s).1 =
      Except.ok (some (i, j, dx.toNat,
        (calculateAdjustedMinOutput (q : Int)).toNat, r)) :=
  generateExchangeCallData_decode_ok addr i j dx r s q hv hr hq hqlt

set_option maxRecDepth 1000000 in
/-- Witness for C10 at (addr, i, j, dx, r) = (11, 2, 1, 50, 9) against the
stub quoter answering 5. -/
theorem exchange_fields_copied_witness :
    validArgs 2 1 50 ∧ (9 : Nat) < 2 ^ 160 ∧
    okStubState.responses 11 2 1 ((50 : Int)).toNat = Except.ok 5 ∧
    Except.map decodeExchangeCallData
        (generateExchangeCallData 11 2 1 50 9 okStubState).1 =
      Except.ok (some (2, 1, (50 : Int).toNat,
        (calculateAdjustedMinOutput ((5 : Nat) : Int)).toNat, 9)) :=
  ⟨by decide, by norm_num, rfl,
    exchange_fields_copied 11 2 1 50 9 okStubState 5 (by decide) (by norm_num)
      rfl (by norm_num)⟩

end EthenaPoc
